import Mathlib

/-!
Shallow embedding of the handle/lifecycle core of the `go-v8` embedding
layer (`src/v8context.cc`).  The scripting engine itself (V8) is an
external collaborator: its compile/run/apply behaviour and its JSON
facilities are modelled by an abstract `Engine` record, while the
embedding-layer control flow (error channel, handle table, call bridge,
exception formatting) is translated line by line from the C++ source.
Script values are modelled by the inductive `JSValue`; persistent handles
(`v8::Persistent<v8::Value>*`) become indices into an explicit heap that
is threaded through every operation of `V8Context`.
-/

set_option autoImplicit false

namespace GoV8

mutual

/-- Model of an engine-resident JavaScript value.  Numbers are modelled as
integers (floating point is outside the scope of the embedding claims);
plain objects and functions carry their own enumerable properties in
insertion order; a function additionally carries its source text, which is
what its string coercion produces. -/
inductive JSValue : Type where
  | undefined : JSValue
  | vnull : JSValue
  | vbool (b : Bool) : JSValue
  | vnum (n : Int) : JSValue
  | vstr (s : String) : JSValue
  | vobj (fields : JSFields) : JSValue
  | vfunc (srcText : String) (fields : JSFields) : JSValue

/-- Own enumerable properties of an object, in insertion order. -/
inductive JSFields : Type where
  | nil : JSFields
  | cons (key : String) (value : JSValue) (rest : JSFields) : JSFields

end

/-- Property names of a field list, in insertion order. -/
def JSFields.keys : JSFields → List String
  | .nil => []
  | .cons k _ rest => k :: rest.keys

/-- First binding of a key in a field list (keys of real JS objects are
unique, so first = only). -/
def JSFields.get : JSFields → String → Option JSValue
  | .nil, _ => none
  | .cons k v rest, key => if k = key then some v else rest.get key

/-- Property update: replace the value in place when the key exists
(insertion order is preserved), append otherwise — JS object semantics. -/
def JSFields.set : JSFields → String → JSValue → JSFields
  | .nil, key, v => .cons key v .nil
  | .cons k w rest, key, v =>
    if k = key then .cons k v rest else .cons k w (rest.set key v)

/-- Translation of `v8::Value::IsObject`: true for objects and functions, false for
primitives (including null, which the V8 API treats as a primitive). -/
def JSValue.isObject : JSValue → Bool
  | .vobj _ => true
  | .vfunc _ _ => true
  | _ => false

/-- Translation of `v8::Value::IsFunction`. -/
def JSValue.isFunction : JSValue → Bool
  | .vfunc _ _ => true
  | _ => false

/-- Translation of `v8::Value::IsUndefined`. -/
def JSValue.isUndefined : JSValue → Bool
  | .undefined => true
  | _ => false

/-- Translation of `Object::GetPropertyNames` on the model: the own enumerable property
names in insertion order (the model's objects have no prototype chain). -/
def JSValue.propertyNames : JSValue → List String
  | .vobj fs => fs.keys
  | .vfunc _ fs => fs.keys
  | _ => []

/-- Translation of `Object::Get(key)`: the bound value, or undefined when absent. -/
def JSValue.getProp : JSValue → String → JSValue
  | .vobj fs, key => (fs.get key).getD .undefined
  | .vfunc _ fs, key => (fs.get key).getD .undefined
  | _, _ => .undefined

/-- Translation of `Object::Set(name, value)`: succeeds on any object-like value (the
model's objects are ordinary and mutable), fails on primitives. -/
def JSValue.setProp : JSValue → String → JSValue → Option JSValue
  | .vobj fs, key, v => some (.vobj (fs.set key v))
  | .vfunc s fs, key, v => some (.vfunc s (fs.set key v))
  | _, _, _ => none

/-- JavaScript `ToString` coercion, as performed by `v8::String::Utf8Value`
on a value (the source's `str` helper): plain objects coerce to
`"[object Object]"`, functions to their source text. -/
def strCoerce : JSValue → String
  | .undefined => "undefined"
  | .vnull => "null"
  | .vbool b => if b then "true" else "false"
  | .vnum n => toString n
  | .vstr s => s
  | .vobj _ => "[object Object]"
  | .vfunc srcText _ => srcText

/-- JSON string escaping for one character (the common escapes; enough for
the embedding model). -/
def jsonEscapeChar (c : Char) : String :=
  if c.toNat = 34 then "\\\""
  else if c.toNat = 92 then "\\\\"
  else if c.toNat = 10 then "\\n"
  else if c.toNat = 13 then "\\r"
  else if c.toNat = 9 then "\\t"
  else String.singleton c

/-- JSON quoting of a string. -/
def jsonQuote (s : String) : String :=
  "\"" ++ String.join (s.toList.map jsonEscapeChar) ++ "\""

mutual

/-- Model of the engine's `JSON.stringify`: `none` models the JS value
`undefined` being returned (top-level undefined or function). -/
def jsonStringify : JSValue → Option String
  | .undefined => none
  | .vfunc _ _ => none
  | .vnull => some "null"
  | .vbool b => some (if b then "true" else "false")
  | .vnum n => some (toString n)
  | .vstr s => some (jsonQuote s)
  | .vobj fs =>
    some ("\x7b" ++ String.intercalate "," (jsonStringifyFields fs) ++ "\x7d")

/-- Model of `JSON.stringify` of an object's fields: members whose value does not
serialize (undefined, functions) are omitted, JS `JSON.stringify`
semantics. -/
def jsonStringifyFields : JSFields → List String
  | .nil => []
  | .cons k v rest =>
    (match jsonStringify v with
     | some s => [jsonQuote k ++ ":" ++ s]
     | none => []) ++ jsonStringifyFields rest

end

/-- Model of the `v8::Message` attached to a caught exception: script resource name,
line, start column and the offending source line. -/
structure JSMessage : Type where
  scriptResourceName : String
  lineNumber : Nat
  startColumn : Nat
  sourceLine : String
deriving DecidableEq

/-- What a `v8::TryCatch` captures about a failed compile or run: the
thrown value, the optional message (source location) and the optional
stack-trace text. -/
structure JSException : Type where
  exception : JSValue
  message : Option JSMessage
  stackTrace : Option String

/-- Abstract model of the scripting engine (one isolate with its JS
semantics).  Compilation yields an opaque script id; running a script or
applying a function either produces a value or throws, which the embedding
observes through its `TryCatch`.  `stringifyF`/`parseF` model the
context's `JSON.stringify`/`JSON.parse` (the `parseF` model is total: the
bridge's resolver contract guarantees well-formed JSON). -/
structure Engine : Type where
  compile : String → String → Except JSException Nat
  runScript : Nat → Except JSException JSValue
  applyFn : JSValue → JSValue → List JSValue → Except JSException JSValue
  globalObj : JSValue
  stringifyF : JSValue → Option String
  parseF : String → JSValue

/-- The source's `to_json` helper: `JSON.stringify` on the value followed
by `ToString` on the result, so a non-serializable top-level value renders
as the string `"undefined"`. -/
def to_json (eng : Engine) (value : JSValue) : String :=
  match eng.stringifyF value with
  | some s => s
  | none => "undefined"

/-- The source's `from_json` helper: `JSON.parse` on the string. -/
def from_json (eng : Engine) (s : String) : JSValue :=
  eng.parseF s

/-- The persistent-handle heap: handle ids mapped to live values; `none`
is a released slot.  Dereferencing a released handle is undefined
behaviour in the C++ (the host's exactly-once release contract); the model
makes it total by reading `undefined`, and theorems that depend on a
handle's value carry an explicit liveness hypothesis. -/
def PersistentHeap : Type := Nat → Option JSValue

/-- State of one `V8Context` together with its isolate's persistent
handles: the handle heap, the next fresh handle id, and the context's
single mutable last-error string `mLastError`. -/
structure V8ContextState : Type where
  persistents : PersistentHeap
  nextHandle : Nat
  mLastError : String

/-- Translation of `new v8::Persistent<v8::Value>(iso, v)`: bind a fresh handle. -/
def allocPersistent (st : V8ContextState) (v : JSValue) : V8ContextState × Nat :=
  (⟨fun i => if i = st.nextHandle then some v else st.persistents i,
    st.nextHandle + 1, st.mLastError⟩,
   st.nextHandle)

/-- Iterated persistent allocation, one fresh handle per value, in order
(the allocation loops of `_go_call_raw` and `BurstPersistent`). -/
def allocPersistents (st : V8ContextState) : List JSValue → V8ContextState × List Nat
  | [] => (st, [])
  | v :: vs =>
    let p := allocPersistent st v
    let q := allocPersistents p.1 vs
    (q.1, p.2 :: q.2)

/-- Dereference a persistent handle (`persist->Get(mIsolate)`), with the
released-slot totality filler. -/
def derefPersistent (st : V8ContextState) (h : Nat) : JSValue :=
  (st.persistents h).getD .undefined

/-- Translation of `V8Context::report_exception`: renders the caught exception into the
last-error text.  The thrown value renders as its JSON view exactly when
its string coercion is `"[object Object]"`, else as that coercion; then
the optional `at file:line:column:sourceLine` segment; then the optional
`Stack trace: ...` segment; all after the fixed `Uncaught exception: `
prefix, each later segment on its own line. -/
def report_exception (eng : Engine) (try_catch : JSException) : String :=
  let exceptionStr := strCoerce try_catch.exception
  let valuePart :=
    if exceptionStr = "[object Object]" then to_json eng try_catch.exception
    else exceptionStr
  let messagePart :=
    match try_catch.message with
    | some m =>
      "\n" ++ "at " ++ m.scriptResourceName ++ ":" ++ toString m.lineNumber
        ++ ":" ++ toString m.startColumn ++ ":" ++ m.sourceLine
    | none => ""
  let stackPart :=
    match try_catch.stackTrace with
    | some s => "\n" ++ "Stack trace: " ++ s
    | none => ""
  "Uncaught exception: " ++ valuePart ++ messagePart ++ stackPart

/-- Translation of `V8Context::Execute`: clear the last error, compile (a null filename
compiles under the script name `"undefined"`), run; on either failure
record the captured exception and return no value; on success return `""`
for a function or undefined result and the JSON text otherwise. -/
def Execute (eng : Engine) (st : V8ContextState) (source : String)
    (filename : Option String) : V8ContextState × Option String :=
  let st1 : V8ContextState := ⟨st.persistents, st.nextHandle, ""⟩
  match eng.compile source (match filename with | some f => f | none => "undefined") with
  | .error e => (⟨st1.persistents, st1.nextHandle, report_exception eng e⟩, none)
  | .ok script =>
    match eng.runScript script with
    | .error e => (⟨st1.persistents, st1.nextHandle, report_exception eng e⟩, none)
    | .ok result =>
      if result.isFunction || result.isUndefined then (st1, some "")
      else (st1, some (to_json eng result))

/-- Translation of `V8Context::Eval`: identical control flow to `Execute`, but a
successful run binds the unserialized result value to a fresh persistent
handle instead of serializing it. -/
def Eval (eng : Engine) (st : V8ContextState) (source : String)
    (filename : Option String) : V8ContextState × Option Nat :=
  let st1 : V8ContextState := ⟨st.persistents, st.nextHandle, ""⟩
  match eng.compile source (match filename with | some f => f | none => "undefined") with
  | .error e => (⟨st1.persistents, st1.nextHandle, report_exception eng e⟩, none)
  | .ok script =>
    match eng.runScript script with
    | .error e => (⟨st1.persistents, st1.nextHandle, report_exception eng e⟩, none)
    | .ok result =>
      let alloc := allocPersistent st1 result
      (alloc.1, some alloc.2)

/-- Translation of `V8Context::Apply`: clear the last error, dereference the function,
receiver (the context's global object when absent) and argument handles,
call; a failed call records the captured exception and returns no value, a
successful one binds the result to a fresh persistent handle. -/
def Apply (eng : Engine) (st : V8ContextState) (func : Nat) (self : Option Nat)
    (argv : List Nat) : V8ContextState × Option Nat :=
  let st1 : V8ContextState := ⟨st.persistents, st.nextHandle, ""⟩
  let vfunc := derefPersistent st1 func
  let vargs := argv.map (derefPersistent st1)
  let vself :=
    match self with
    | none => eng.globalObj
    | some h => derefPersistent st1 h
  match eng.applyFn vfunc vself vargs with
  | .error e => (⟨st1.persistents, st1.nextHandle, report_exception eng e⟩, none)
  | .ok result =>
    let alloc := allocPersistent st1 result
    (alloc.1, some alloc.2)

/-- Translation of `V8Context::PersistentToJSON`: serialize the referenced value's
current state; no context state is modified. -/
def PersistentToJSON (eng : Engine) (st : V8ContextState) (persistent : Nat) :
    V8ContextState × String :=
  (st, to_json eng (derefPersistent st persistent))

/-- Translation of `V8Context::ReleasePersistent`: reset and delete the handle; the
context state (in particular `mLastError`) is untouched. -/
def ReleasePersistent (st : V8ContextState) (persistent : Nat) : V8ContextState :=
  ⟨fun i => if i = persistent then none else st.persistents i,
   st.nextHandle, st.mLastError⟩

/-- Translation of `V8Context::SetPersistentField`: a non-object receiver fails with the
fixed diagnostic string and changes nothing; otherwise the named property
is set on the object and only then is the persistent handle rebound to
that object, returning no error (`NULL`). -/
def SetPersistentField (st : V8ContextState) (persistent : Nat) (field : String)
    (value : Nat) : V8ContextState × Option String :=
  let maybeObject := derefPersistent st persistent
  if !maybeObject.isObject then
    (st, some "The supplied receiver is not an object.")
  else
    let object := maybeObject
    let local_val := derefPersistent st value
    match object.setProp field local_val with
    | none => (st, some "Cannot set value")
    | some object2 =>
      (⟨fun i => if i = persistent then some object2 else st.persistents i,
        st.nextHandle, st.mLastError⟩,
       none)

/-- Translation of `V8Context::BurstPersistent`: clears `mLastError` on entry; a
non-object handle returns `NULL` (modelled `none`, the caller-side type
error); an object handle yields one `(name, fresh handle)` pair per
property name, in enumeration order, each handle bound to the
corresponding property value. -/
def BurstPersistent (st : V8ContextState) (persistent : Nat) :
    V8ContextState × Option (List (String × Nat)) :=
  let st1 : V8ContextState := ⟨st.persistents, st.nextHandle, ""⟩
  let maybeObject := derefPersistent st1 persistent
  if !maybeObject.isObject then (st1, none)
  else
    let object := maybeObject
    let keys := object.propertyNames
    let alloc := allocPersistents st1 (keys.map object.getProp)
    (alloc.1, some (keys.zip alloc.2))

/-- Translation of `V8Context::Error`: a copy of the context's `mLastError`. -/
def Error (st : V8ContextState) : String :=
  st.mLastError

/-- One captured stack frame (`v8::StackFrame`): script name, function
name, line and column. -/
structure StackFrame : Type where
  scriptName : String
  functionName : String
  lineNumber : Nat
  column : Nat
deriving DecidableEq

/-- The `_go_call` bridge entry (Name+JSON protocol): forwards the context
id, function name and pre-encoded JSON argument string to the host
resolver `_go_v8_callback`; a non-null returned string is JSON-decoded
into the call's result, a null return leaves the return value at its
default, undefined. -/
def _go_call (eng : Engine) (resolver : Nat → String → String → Option String)
    (id : Nat) (name : String) (argv : String) : JSValue :=
  match resolver id name argv with
  | some retv => from_json eng retv
  | none => JSValue.undefined

/-- The `_go_call_raw` bridge entry (Name+Handle protocol): captures the
current stack trace limited to two frames and, when exactly two are
available, reads the caller's script name, function name, line and column
from the second; wraps each already-evaluated argument value in a fresh
persistent handle; forwards everything to the host resolver
`_go_v8_callback_raw`; a null resolver return makes the result undefined,
a non-null one is dereferenced as the result value. -/
def _go_call_raw (resolver : Nat → String → String → String → Nat → Nat → List Nat → Option Nat)
    (st : V8ContextState) (id : Nat) (name : String) (hargv : List JSValue)
    (stack : List StackFrame) : V8ContextState × JSValue :=
  let trace := stack.take 2
  let info : String × String × Nat × Nat :=
    match trace with
    | [_, frame] => (frame.scriptName, frame.functionName, frame.lineNumber, frame.column)
    | _ => ("", "", 0, 0)
  let src_file := info.1
  let src_func := info.2.1
  let line_number := info.2.2.1
  let column := info.2.2.2
  let alloc := allocPersistents st hargv
  match resolver id name src_func src_file line_number column alloc.2 with
  | none => (alloc.1, JSValue.undefined)
  | some retv => (alloc.1, derefPersistent alloc.1 retv)

/-- The compile-then-run pipeline shared by `Execute` and `Eval`, as one
`Except` computation: what the script's top-level evaluation produces. -/
def executeOutcome (eng : Engine) (source : String) (filename : Option String) :
    Except JSException JSValue :=
  match eng.compile source (match filename with | some f => f | none => "undefined") with
  | .error e => .error e
  | .ok script => eng.runScript script

/-! ### Spec-side renderings (for the refinement statements about
`report_exception`) -/

/-- Spec-side location segment, following the spec's words: the location
rendered as `at file:line:column:sourceLine`, omitted when unavailable. -/
def claimLocationSegment : Option JSMessage → String
  | some m =>
    "\n" ++ "at " ++ m.scriptResourceName ++ ":" ++ toString m.lineNumber
      ++ ":" ++ toString m.startColumn ++ ":" ++ m.sourceLine
  | none => ""

/-- Spec-side stack segment, following the spec's words: the
`Stack trace: ...` text, omitted when unavailable. -/
def claimStackSegment : Option String → String
  | some s => "\n" ++ "Stack trace: " ++ s
  | none => ""

/-- Spec-side value rendering exactly as the claim words it: the JSON view
if the thrown value is an object, else its string coercion. -/
def claimValueRendering (eng : Engine) (v : JSValue) : String :=
  if v.isObject then to_json eng v else strCoerce v

/-- Spec-side captured-exception text exactly as the claim words it: the
three optional segments and nothing else. -/
def claimExceptionText (eng : Engine) (e : JSException) : String :=
  claimValueRendering eng e.exception
    ++ claimLocationSegment e.message
    ++ claimStackSegment e.stackTrace

/-- Amended value rendering, as the code actually selects it: the JSON
view exactly when the string coercion of the thrown value is
`"[object Object]"`, else that coercion. -/
def amendedValueRendering (eng : Engine) (v : JSValue) : String :=
  if strCoerce v = "[object Object]" then to_json eng v else strCoerce v

/-! ### Concrete fixtures used by witnesses and counterexamples -/

/-- Test engine whose every script evaluates to the given outcome and
whose JSON facilities are the concrete model codec. -/
def testEngine (outcome : Except JSException JSValue) : Engine where
  compile := fun _ _ => Except.ok 0
  runScript := fun _ => outcome
  applyFn := fun _ _ _ => outcome
  globalObj := JSValue.vobj JSFields.nil
  stringifyF := jsonStringify
  parseF := fun s => if s = "7" then JSValue.vnum 7 else JSValue.vnull

/-- Test engine on which every compilation fails with the given captured
exception. -/
def compileFailEngine (e : JSException) : Engine where
  compile := fun _ _ => Except.error e
  runScript := fun _ => Except.ok JSValue.undefined
  applyFn := fun _ _ _ => Except.error e
  globalObj := JSValue.vobj JSFields.nil
  stringifyF := jsonStringify
  parseF := fun _ => JSValue.vnull

/-- Default concrete engine (scripts evaluate to undefined). -/
def stdEngine : Engine := testEngine (Except.ok JSValue.undefined)

/-- A sample captured exception with a plain string value. -/
def sampleExc : JSException := ⟨JSValue.vstr "boom", none, none⟩

/-- The object `{a:1,b:2}` of the spec's Burst example. -/
def demoObject : JSValue :=
  JSValue.vobj (JSFields.cons "a" (JSValue.vnum 1)
    (JSFields.cons "b" (JSValue.vnum 2) JSFields.nil))

/-- Concrete handle heap: handle 0 wraps the number 1, handle 1 wraps
`{a:1,b:2}`, handle 2 wraps the number 5. -/
def demoHeap : PersistentHeap := fun i =>
  if i = 0 then some (JSValue.vnum 1)
  else if i = 1 then some demoObject
  else if i = 2 then some (JSValue.vnum 5)
  else none

/-- Concrete context state over `demoHeap` with an empty last error. -/
def demoState : V8ContextState := ⟨demoHeap, 3, ""⟩

/-- Concrete context state with no live handles and an empty last error. -/
def emptyState : V8ContextState := ⟨fun _ => none, 0, ""⟩

/-! ### Helper lemmas -/

/-- The handles returned by iterated allocation are the consecutive fresh
ids starting at the state's next-handle counter. -/
theorem allocPersistents_snd (vs : List JSValue) (st : V8ContextState) :
    (allocPersistents st vs).2 = List.range' st.nextHandle vs.length := by
  induction vs generalizing st with
  | nil => simp [allocPersistents]
  | cons v vs ih =>
    simp [allocPersistents, allocPersistent, ih, List.range'_succ]

/-- Iterated allocation advances the next-handle counter by the number of
values allocated. -/
theorem allocPersistents_nextHandle (vs : List JSValue) (st : V8ContextState) :
    (allocPersistents st vs).1.nextHandle = st.nextHandle + vs.length := by
  induction vs generalizing st with
  | nil => simp [allocPersistents]
  | cons v vs ih =>
    simp [allocPersistents, allocPersistent, ih]
    omega

/-- Iterated allocation does not touch the last-error string. -/
theorem allocPersistents_mLastError (vs : List JSValue) (st : V8ContextState) :
    (allocPersistents st vs).1.mLastError = st.mLastError := by
  induction vs generalizing st with
  | nil => rfl
  | cons v vs ih =>
    simp [allocPersistents, allocPersistent, ih]

/-- Iterated allocation leaves every slot below the starting next-handle
counter unchanged. -/
theorem allocPersistents_persistents_lt (vs : List JSValue) (st : V8ContextState)
    (j : Nat) (hj : j < st.nextHandle) :
    (allocPersistents st vs).1.persistents j = st.persistents j := by
  induction vs generalizing st with
  | nil => rfl
  | cons v vs ih =>
    have hj1 : j < st.nextHandle + 1 := Nat.lt_succ_of_lt hj
    have := ih (allocPersistent st v).1 (by simpa [allocPersistent] using hj1)
    simp only [allocPersistents]
    rw [this]
    simp [allocPersistent]
    omega

/-- After iterated allocation, the i-th fresh handle is bound to the i-th
value. -/
theorem allocPersistents_persistents_get (vs : List JSValue) (st : V8ContextState)
    (i : Nat) (hi : i < vs.length) :
    (allocPersistents st vs).1.persistents (st.nextHandle + i) = some vs[i] := by
  induction vs generalizing st i with
  | nil => exact absurd hi (Nat.not_lt_zero i)
  | cons v vs ih =>
    cases i with
    | zero =>
      simp only [allocPersistents]
      rw [allocPersistents_persistents_lt vs (allocPersistent st v).1
        (st.nextHandle + 0) (by simp [allocPersistent])]
      simp [allocPersistent]
    | succ k =>
      have hk : k < vs.length := Nat.lt_of_succ_lt_succ hi
      have h2 := ih (allocPersistent st v).1 k hk
      simp only [allocPersistents]
      have e1 : st.nextHandle + (k + 1) = (allocPersistent st v).1.nextHandle + k := by
        simp [allocPersistent]
        omega
      rw [e1, h2]
      simp

/-- Setting a key then reading it back yields the written value. -/
theorem JSFields.get_set : (fs : JSFields) → (key : String) → (v : JSValue) →
    (fs.set key v).get key = some v
  | .nil, key, v => by simp [JSFields.set, JSFields.get]
  | .cons k w rest, key, v => by
    by_cases hk : k = key
    · simp [JSFields.set, JSFields.get, hk]
    · simp [JSFields.set, JSFields.get, hk, JSFields.get_set rest key v]

/-- On any object-like value, the source's property set succeeds and the
named property afterwards reads back as the written value. -/
theorem setProp_isObject (v : JSValue) (key : String) (w : JSValue)
    (hv : v.isObject = true) :
    ∃ v2, v.setProp key w = some v2 ∧ v2.getProp key = w := by
  cases v with
  | vobj fs =>
    exact ⟨.vobj (fs.set key w), rfl, by simp [JSValue.getProp, JSFields.get_set]⟩
  | vfunc s fs =>
    exact ⟨.vfunc s (fs.set key w), rfl, by simp [JSValue.getProp, JSFields.get_set]⟩
  | undefined => simp [JSValue.isObject] at hv
  | vnull => simp [JSValue.isObject] at hv
  | vbool b => simp [JSValue.isObject] at hv
  | vnum n => simp [JSValue.isObject] at hv
  | vstr s => simp [JSValue.isObject] at hv

/-- Unfolding lemma: `Execute` as a function of the compile-then-run
outcome. -/
theorem Execute_eq_outcome (eng : Engine) (st : V8ContextState) (source : String)
    (filename : Option String) :
    Execute eng st source filename =
      match executeOutcome eng source filename with
      | .error e => (⟨st.persistents, st.nextHandle, report_exception eng e⟩, none)
      | .ok v =>
        if v.isFunction || v.isUndefined
          then (⟨st.persistents, st.nextHandle, ""⟩, some "")
          else (⟨st.persistents, st.nextHandle, ""⟩, some (to_json eng v)) := by
  unfold Execute executeOutcome
  cases eng.compile source (match filename with | some f => f | none => "undefined") with
  | error e => rfl
  | ok script => cases eng.runScript script <;> rfl

/-- Unfolding lemma: `Eval` as a function of the compile-then-run
outcome. -/
theorem Eval_eq_outcome (eng : Engine) (st : V8ContextState) (source : String)
    (filename : Option String) :
    Eval eng st source filename =
      match executeOutcome eng source filename with
      | .error e => (⟨st.persistents, st.nextHandle, report_exception eng e⟩, none)
      | .ok v =>
        (⟨fun i => if i = st.nextHandle then some v else st.persistents i,
          st.nextHandle + 1, ""⟩, some st.nextHandle) := by
  unfold Eval executeOutcome
  cases eng.compile source (match filename with | some f => f | none => "undefined") with
  | error e => rfl
  | ok script => cases eng.runScript script <;> rfl

/-! ### The claims -/

/-- C1: for every source text and filename, `Execute` returns the textual
JSON encoding of the script's top-level result; it returns an empty string
when that result is a function or undefined; and on a compile failure or a
runtime failure it returns no value while recording the captured exception
as the context's last error. -/
theorem Execute_result_spec (eng : Engine) (st : V8ContextState) (source : String)
    (filename : Option String) :
    (∀ v, executeOutcome eng source filename = Except.ok v →
      (v.isFunction = false → v.isUndefined = false →
        Execute eng st source filename =
          (⟨st.persistents, st.nextHandle, ""⟩, some (to_json eng v))) ∧
      (v.isFunction = true ∨ v.isUndefined = true →
        Execute eng st source filename =
          (⟨st.persistents, st.nextHandle, ""⟩, some ""))) ∧
    (∀ e, executeOutcome eng source filename = Except.error e →
      (Execute eng st source filename).2 = none ∧
      Error (Execute eng st source filename).1 = report_exception eng e) := by
  refine ⟨fun v hv => ⟨fun hf hu => ?_, fun hfu => ?_⟩, fun e he => ?_⟩
  · rw [Execute_eq_outcome, hv]
    simp [hf, hu]
  · rw [Execute_eq_outcome, hv]
    rcases hfu with h | h <;> simp [h]
  · rw [Execute_eq_outcome, he]
    exact ⟨rfl, rfl⟩

/-- C1 witness: a script evaluating to the number 7 makes `Execute`
return the JSON text `"7"`. -/
theorem Execute_result_spec_witness :
    executeOutcome (testEngine (Except.ok (JSValue.vnum 7))) "7" none
        = Except.ok (JSValue.vnum 7) ∧
    (JSValue.vnum 7).isFunction = false ∧
    (Execute (testEngine (Except.ok (JSValue.vnum 7))) emptyState "7" none).2
        = some "7" := by
  refine ⟨rfl, rfl, ?_⟩
  have h := ((Execute_result_spec (testEngine (Except.ok (JSValue.vnum 7)))
      emptyState "7" none).1 (JSValue.vnum 7) rfl).1 rfl rfl
  rw [h]
  rfl

/-- C2 counterexample: on a script whose top-level result is undefined,
`Execute` returns the empty string while `Eval` followed by `ToJSON`
yields `"undefined"`, so the claim fails in the function/undefined case it
explicitly includes. -/
theorem Eval_toJSON_vs_Execute_counterexample :
    (Execute stdEngine emptyState "undefined" none).2 = some "" ∧
    (Eval stdEngine emptyState "undefined" none).2 = some 0 ∧
    (PersistentToJSON stdEngine (Eval stdEngine emptyState "undefined" none).1 0).2
        = "undefined" ∧
    ("undefined" : String) ≠ "" := by
  exact ⟨rfl, rfl, rfl, by decide⟩

/-- C2 amended: for every source text (the model's engines are pure, which
is what the claim's no-bridge-calls proviso guarantees) whose top-level
result is neither a function nor undefined, evaluating with `Eval` and
applying `ToJSON` to the returned handle yields exactly `Execute`'s
output. -/
theorem Eval_toJSON_agrees_with_Execute (eng : Engine) (st : V8ContextState)
    (source : String) (filename : Option String) (v : JSValue)
    (hok : executeOutcome eng source filename = Except.ok v)
    (hfn : v.isFunction = false) (hud : v.isUndefined = false) :
    ∃ h, (Eval eng st source filename).2 = some h ∧
      (Execute eng st source filename).2 =
        some (PersistentToJSON eng (Eval eng st source filename).1 h).2 := by
  rw [Eval_eq_outcome, Execute_eq_outcome, hok]
  refine ⟨st.nextHandle, rfl, ?_⟩
  simp [hfn, hud, PersistentToJSON, derefPersistent]

/-- C2 amended witness: a script evaluating to the number 5 gives the same
text `"5"` through both paths. -/
theorem Eval_toJSON_agrees_with_Execute_witness :
    executeOutcome (testEngine (Except.ok (JSValue.vnum 5))) "5" none
        = Except.ok (JSValue.vnum 5) ∧
    ∃ h, (Eval (testEngine (Except.ok (JSValue.vnum 5))) emptyState "5" none).2 = some h ∧
      (Execute (testEngine (Except.ok (JSValue.vnum 5))) emptyState "5" none).2 =
        some (PersistentToJSON (testEngine (Except.ok (JSValue.vnum 5)))
          (Eval (testEngine (Except.ok (JSValue.vnum 5))) emptyState "5" none).1 h).2 :=
  ⟨rfl, Eval_toJSON_agrees_with_Execute (testEngine (Except.ok (JSValue.vnum 5)))
    emptyState "5" none (JSValue.vnum 5) rfl rfl rfl⟩

/-- C7 counterexample: the recorded text is not only the three optional
segments — it always begins with the fixed prefix `Uncaught exception: `;
and the value-rendering rule the claim states (JSON view iff the value is
an object) also disagrees with the code, which takes the JSON view exactly
when the string coercion is `"[object Object]"` (here: a thrown plain
string `"[object Object]"`). -/
theorem report_exception_counterexample :
    report_exception stdEngine ⟨JSValue.vnum 3, none, none⟩
        ≠ claimExceptionText stdEngine ⟨JSValue.vnum 3, none, none⟩ ∧
    report_exception stdEngine ⟨JSValue.vstr "[object Object]", none, none⟩
        ≠ "Uncaught exception: "
            ++ claimExceptionText stdEngine ⟨JSValue.vstr "[object Object]", none, none⟩ := by
  constructor <;> decide

/-- C7 amended: every captured failure's recorded text is the fixed prefix
`Uncaught exception: ` followed by, in order, up to three optional
segments separated by line breaks: the rendered thrown value (its JSON
view exactly when its string coercion is `"[object Object]"`, else that
coercion), the location rendered as `at file:line:column:sourceLine`, and
the `Stack trace: ...` text, any unavailable segment omitted. -/
theorem report_exception_format (eng : Engine) (e : JSException) :
    report_exception eng e =
      "Uncaught exception: " ++ amendedValueRendering eng e.exception
        ++ claimLocationSegment e.message ++ claimStackSegment e.stackTrace := rfl

/-- C10: calling `Execute` or `Eval` with a null filename behaves exactly
as if the filename string `"undefined"` had been supplied, so any captured
exception carries that script name in its location segment. -/
theorem null_filename_defaults_to_undefined (eng : Engine) (st : V8ContextState)
    (source : String) :
    Execute eng st source none = Execute eng st source (some "undefined") ∧
    Eval eng st source none = Eval eng st source (some "undefined") :=
  ⟨rfl, rfl⟩

/-- C3: on a handle whose referenced value is not object-like, `SetField`
returns the fixed diagnostic string and leaves the handle's binding
observably unchanged (its `ToJSON` is that of the value before the call);
on a handle referencing an object it sets the named property, rebinds the
handle to that object, and returns no error. -/
theorem SetPersistentField_spec (eng : Engine) (st : V8ContextState) (h : Nat)
    (field : String) (vh : Nat) (v w : JSValue)
    (hlive : st.persistents h = some v) (hvlive : st.persistents vh = some w) :
    (v.isObject = false →
      SetPersistentField st h field vh
          = (st, some "The supplied receiver is not an object.") ∧
      (PersistentToJSON eng (SetPersistentField st h field vh).1 h).2
          = (PersistentToJSON eng st h).2) ∧
    (v.isObject = true →
      ∃ v2, v.setProp field w = some v2 ∧
        (SetPersistentField st h field vh).2 = none ∧
        (SetPersistentField st h field vh).1.persistents h = some v2 ∧
        v2.getProp field = w) := by
  constructor
  · intro hobj
    have heq : SetPersistentField st h field vh
        = (st, some "The supplied receiver is not an object.") := by
      unfold SetPersistentField
      simp [derefPersistent, hlive, hobj]
    exact ⟨heq, by rw [heq]⟩
  · intro hobj
    obtain ⟨v2, hset, hget⟩ := setProp_isObject v field w hobj
    refine ⟨v2, hset, ?_, ?_, hget⟩
    · unfold SetPersistentField
      simp [derefPersistent, hlive, hvlive, hobj, hset]
    · unfold SetPersistentField
      simp [derefPersistent, hlive, hvlive, hobj, hset]

/-- C3 witness: on a handle wrapping the number 1 the designated type
error is returned; on a handle wrapping an object the set succeeds with no
error. -/
theorem SetPersistentField_spec_witness :
    demoState.persistents 0 = some (JSValue.vnum 1) ∧
    demoState.persistents 2 = some (JSValue.vnum 5) ∧
    (JSValue.vnum 1).isObject = false ∧
    (SetPersistentField demoState 0 "x" 2).2
        = some "The supplied receiver is not an object." ∧
    demoState.persistents 1 = some demoObject ∧
    demoObject.isObject = true ∧
    (SetPersistentField demoState 1 "x" 2).2 = none := by
  refine ⟨rfl, rfl, rfl, ?_, rfl, rfl, ?_⟩
  · have heq := ((SetPersistentField_spec stdEngine demoState 0 "x" 2
        (JSValue.vnum 1) (JSValue.vnum 5) rfl rfl).1 rfl).1
    rw [heq]
  · obtain ⟨v2, -, hnone, -, -⟩ := (SetPersistentField_spec stdEngine demoState 1 "x" 2
        demoObject (JSValue.vnum 5) rfl rfl).2 rfl
    exact hnone

/-- C4: on a handle referencing an object, `Burst` yields exactly one
(name, handle) pair per own enumerable property, in enumeration order (the
handles being the consecutive fresh ids), each handle referencing the
corresponding property value; on a handle not referencing an object it
returns null. -/
theorem BurstPersistent_spec (st : V8ContextState) (h : Nat) (v : JSValue)
    (hlive : st.persistents h = some v) :
    (v.isObject = true →
      ∃ st2, BurstPersistent st h =
          (st2, some (v.propertyNames.zip
            (List.range' st.nextHandle v.propertyNames.length))) ∧
        ∀ i, (hi : i < v.propertyNames.length) →
          st2.persistents (st.nextHandle + i) = some (v.getProp v.propertyNames[i])) ∧
    (v.isObject = false → (BurstPersistent st h).2 = none) := by
  constructor
  · intro hobj
    refine ⟨(allocPersistents ⟨st.persistents, st.nextHandle, ""⟩
        (v.propertyNames.map v.getProp)).1, ?_, ?_⟩
    · unfold BurstPersistent
      simp [derefPersistent, hlive, hobj, allocPersistents_snd]
    · intro i hi
      have hi2 : i < (v.propertyNames.map v.getProp).length := by simpa using hi
      have hv := allocPersistents_persistents_get (v.propertyNames.map v.getProp)
        ⟨st.persistents, st.nextHandle, ""⟩ i hi2
      simpa using hv
  · intro hobj
    unfold BurstPersistent
    simp [derefPersistent, hlive, hobj]

/-- C4 witness: bursting a handle wrapping `{a:1,b:2}` gives exactly the
pairs named `a` and `b` in that order, whose handles serialize to `1` and
`2`. -/
theorem BurstPersistent_spec_witness :
    demoState.persistents 1 = some demoObject ∧
    demoObject.isObject = true ∧
    (BurstPersistent demoState 1).2 = some [("a", 3), ("b", 4)] ∧
    (PersistentToJSON stdEngine (BurstPersistent demoState 1).1 3).2 = "1" ∧
    (PersistentToJSON stdEngine (BurstPersistent demoState 1).1 4).2 = "2" := by
  obtain ⟨st2, heq, hvals⟩ := (BurstPersistent_spec demoState 1 demoObject rfl).1 rfl
  refine ⟨rfl, rfl, ?_, rfl, rfl⟩
  rw [heq]
  rfl

/-- C5 counterexample: `Burst` does not leave the context's last-error
unchanged — it clears it on entry, even when it then fails with the type
error. -/
theorem handle_ops_last_error_counterexample :
    Error (BurstPersistent ⟨fun _ => none, 0, "boom"⟩ 0).1
      ≠ Error ⟨fun _ => none, 0, "boom"⟩ := by
  decide

/-- C5 amended: `ToJSON`, `SetField` and `Release` leave the context's
last-error unchanged in every case, including type-error returns; `Burst`
instead always clears the last-error to the empty string on entry. -/
theorem handle_ops_last_error (eng : Engine) (st : V8ContextState) (h vh : Nat)
    (field : String) :
    (PersistentToJSON eng st h).1 = st ∧
    Error (SetPersistentField st h field vh).1 = Error st ∧
    Error (ReleasePersistent st h) = Error st ∧
    Error (BurstPersistent st h).1 = "" := by
  refine ⟨rfl, ?_, rfl, ?_⟩
  · simp only [Error, SetPersistentField]
    split
    · rfl
    · split <;> rfl
  · simp only [Error, BurstPersistent]
    split
    · rfl
    · simp [allocPersistents_mLastError]

/-- Unfolding lemma: `Apply` as a function of the engine's call outcome on
the dereferenced function, receiver and arguments. -/
theorem Apply_eq_outcome (eng : Engine) (p : PersistentHeap) (n : Nat) (s : String)
    (func : Nat) (self : Option Nat) (argv : List Nat) :
    Apply eng ⟨p, n, s⟩ func self argv =
      match eng.applyFn (derefPersistent ⟨p, n, ""⟩ func)
          (match self with
           | none => eng.globalObj
           | some h2 => derefPersistent ⟨p, n, ""⟩ h2)
          (argv.map (derefPersistent ⟨p, n, ""⟩)) with
      | .error e => (⟨p, n, report_exception eng e⟩, none)
      | .ok result =>
        (⟨fun i => if i = n then some result else p i, n + 1, ""⟩, some n) := by
  unfold Apply
  split <;> rfl

/-- C6: `Execute`, `Eval` and `Apply` each overwrite the last-error at the
start of the call (their behaviour is independent of the previous
last-error); after a success `Error` returns the empty string; after a
failure `Error` returns exactly the captured-exception text of that
failure, never an accumulation. -/
theorem toplevel_ops_error_discipline (eng : Engine) (p : PersistentHeap) (n : Nat)
    (s1 s2 : String) (source : String) (filename : Option String)
    (func : Nat) (self : Option Nat) (argv : List Nat) :
    Execute eng ⟨p, n, s1⟩ source filename = Execute eng ⟨p, n, s2⟩ source filename ∧
    Eval eng ⟨p, n, s1⟩ source filename = Eval eng ⟨p, n, s2⟩ source filename ∧
    Apply eng ⟨p, n, s1⟩ func self argv = Apply eng ⟨p, n, s2⟩ func self argv ∧
    (∀ r, (Execute eng ⟨p, n, s1⟩ source filename).2 = some r →
      Error (Execute eng ⟨p, n, s1⟩ source filename).1 = "") ∧
    (∀ hd, (Eval eng ⟨p, n, s1⟩ source filename).2 = some hd →
      Error (Eval eng ⟨p, n, s1⟩ source filename).1 = "") ∧
    (∀ hd, (Apply eng ⟨p, n, s1⟩ func self argv).2 = some hd →
      Error (Apply eng ⟨p, n, s1⟩ func self argv).1 = "") ∧
    (∀ e, executeOutcome eng source filename = Except.error e →
      Error (Execute eng ⟨p, n, s1⟩ source filename).1 = report_exception eng e ∧
      Error (Eval eng ⟨p, n, s1⟩ source filename).1 = report_exception eng e) ∧
    ((Apply eng ⟨p, n, s1⟩ func self argv).2 = none →
      ∃ e, eng.applyFn (derefPersistent ⟨p, n, ""⟩ func)
            (match self with
             | none => eng.globalObj
             | some h2 => derefPersistent ⟨p, n, ""⟩ h2)
            (argv.map (derefPersistent ⟨p, n, ""⟩)) = Except.error e ∧
          Error (Apply eng ⟨p, n, s1⟩ func self argv).1 = report_exception eng e) := by
  refine ⟨rfl, rfl, rfl, ?_, ?_, ?_, ?_, ?_⟩
  · intro r hr
    rw [Execute_eq_outcome] at hr ⊢
    revert hr
    split
    · intro hr
      simp at hr
    · split <;> intro _ <;> rfl
  · intro hd hd2
    rw [Eval_eq_outcome] at hd2 ⊢
    revert hd2
    split
    · intro hr
      simp at hr
    · intro _
      rfl
  · intro hd hd2
    rw [Apply_eq_outcome] at hd2 ⊢
    revert hd2
    split
    · intro hr
      simp at hr
    · intro _
      rfl
  · intro e he
    constructor
    · rw [Execute_eq_outcome, he]
      rfl
    · rw [Eval_eq_outcome, he]
      rfl
  · intro hap
    rw [Apply_eq_outcome] at hap ⊢
    revert hap
    split
    · intro _
      exact ⟨_, ‹_›, rfl⟩
    · intro hap
      simp at hap

/-- C6 witness: a compile failure records exactly the rendered captured
exception; a success leaves the error channel empty even when the state
held a stale error before the call. -/
theorem toplevel_ops_error_discipline_witness :
    executeOutcome (compileFailEngine sampleExc) "x" none = Except.error sampleExc ∧
    Error (Execute (compileFailEngine sampleExc) ⟨fun _ => none, 0, "old"⟩ "x" none).1
        = report_exception (compileFailEngine sampleExc) sampleExc ∧
    (Execute stdEngine ⟨fun _ => none, 0, "old"⟩ "x" none).2 = some "" ∧
    Error (Execute stdEngine ⟨fun _ => none, 0, "old"⟩ "x" none).1 = "" := by
  refine ⟨rfl, ?_, rfl, ?_⟩
  · exact ((toplevel_ops_error_discipline (compileFailEngine sampleExc) (fun _ => none)
      0 "old" "old" "x" none 0 none []).2.2.2.2.2.2.1 sampleExc rfl).1
  · exact (toplevel_ops_error_discipline stdEngine (fun _ => none)
      0 "old" "old" "x" none 0 none []).2.2.2.1 "" rfl

/-- C8: the Name+JSON bridge forwards the function name and the
pre-encoded JSON argument string verbatim to the resolver; a non-null
returned JSON string is decoded into the call's result and a null return
makes the result undefined rather than a failure. -/
theorem go_call_spec (eng : Engine) (resolver : Nat → String → String → Option String)
    (id : Nat) (name argv : String) :
    (∀ retv, resolver id name argv = some retv →
      _go_call eng resolver id name argv = from_json eng retv) ∧
    (resolver id name argv = none →
      _go_call eng resolver id name argv = JSValue.undefined) := by
  unfold _go_call
  constructor
  · intro retv hres
    rw [hres]
  · intro hres
    rw [hres]

/-- C8 witness: a resolver answering the JSON text `7` produces the number
7 as the call's result; a resolver answering null produces undefined. -/
theorem go_call_spec_witness :
    (fun (_ : Nat) (_ : String) (_ : String) => (some "7" : Option String)) 1 "f" "[1]"
        = some "7" ∧
    _go_call stdEngine (fun _ _ _ => some "7") 1 "f" "[1]" = JSValue.vnum 7 ∧
    _go_call stdEngine (fun _ _ _ => none) 1 "g" "[]" = JSValue.undefined := by
  refine ⟨rfl, ?_, ?_⟩
  · have heq := (go_call_spec stdEngine (fun _ _ _ => some "7") 1 "f" "[1]").1 "7" rfl
    rw [heq]
    rfl
  · exact (go_call_spec stdEngine (fun _ _ _ => none) 1 "g" "[]").2 rfl

/-- C9: the Name+Handle bridge reads the caller data (function name,
script file, line, column) from exactly the stack frame one above the call
site, wraps each already-evaluated argument in its own fresh handle bound
to that argument's value, and forwards all of it to the resolver; a null
resolver return makes the call's result undefined, a non-null result
handle's referenced value becomes the result. -/
theorem go_call_raw_spec
    (resolver : Nat → String → String → String → Nat → Nat → List Nat → Option Nat)
    (st : V8ContextState) (id : Nat) (name : String) (hargv : List JSValue)
    (top frame : StackFrame) (rest : List StackFrame) :
    (∀ i, (hi : i < hargv.length) →
      (allocPersistents st hargv).1.persistents (st.nextHandle + i) = some hargv[i]) ∧
    (resolver id name frame.functionName frame.scriptName frame.lineNumber frame.column
        (List.range' st.nextHandle hargv.length) = none →
      _go_call_raw resolver st id name hargv (top :: frame :: rest)
        = ((allocPersistents st hargv).1, JSValue.undefined)) ∧
    (∀ rh w, resolver id name frame.functionName frame.scriptName frame.lineNumber
        frame.column (List.range' st.nextHandle hargv.length) = some rh →
      (allocPersistents st hargv).1.persistents rh = some w →
      _go_call_raw resolver st id name hargv (top :: frame :: rest)
        = ((allocPersistents st hargv).1, w)) := by
  refine ⟨fun i hi => allocPersistents_persistents_get hargv st i hi, ?_, ?_⟩
  · intro hres
    show (match resolver id name frame.functionName frame.scriptName frame.lineNumber
            frame.column (allocPersistents st hargv).2 with
          | none => ((allocPersistents st hargv).1, JSValue.undefined)
          | some retv =>
            ((allocPersistents st hargv).1,
              derefPersistent (allocPersistents st hargv).1 retv))
        = ((allocPersistents st hargv).1, JSValue.undefined)
    rw [allocPersistents_snd, hres]
  · intro rh w hres hw
    show (match resolver id name frame.functionName frame.scriptName frame.lineNumber
            frame.column (allocPersistents st hargv).2 with
          | none => ((allocPersistents st hargv).1, JSValue.undefined)
          | some retv =>
            ((allocPersistents st hargv).1,
              derefPersistent (allocPersistents st hargv).1 retv))
        = ((allocPersistents st hargv).1, w)
    rw [allocPersistents_snd, hres]
    simp [derefPersistent, hw]

/-- C9 witness: with stack `[call site, caller]`, the caller's metadata is
forwarded (the resolver only answers when it sees the caller name and gets
the argument handle list), and the returned argument handle dereferences
to the wrapped argument value 1. -/
theorem go_call_raw_spec_witness :
    (fun (_ : Nat) (_ : String) (fn : String) (_ : String) (_ : Nat) (_ : Nat)
        (hs : List Nat) => if fn = "caller" then hs.head? else none)
      1 "f" "caller" "file.js" 10 4 (List.range' 0 1) = some 0 ∧
    (allocPersistents emptyState [JSValue.vnum 1]).1.persistents 0
        = some (JSValue.vnum 1) ∧
    _go_call_raw
        (fun _ _ fn _ _ _ hs => if fn = "caller" then hs.head? else none)
        emptyState 1 "f" [JSValue.vnum 1]
        [⟨"main.js", "", 1, 1⟩, ⟨"file.js", "caller", 10, 4⟩]
        = ((allocPersistents emptyState [JSValue.vnum 1]).1, JSValue.vnum 1) := by
  refine ⟨rfl, rfl, ?_⟩
  exact (go_call_raw_spec
      (fun _ _ fn _ _ _ hs => if fn = "caller" then hs.head? else none)
      emptyState 1 "f" [JSValue.vnum 1]
      ⟨"main.js", "", 1, 1⟩ ⟨"file.js", "caller", 10, 4⟩ []).2.2
      0 (JSValue.vnum 1) rfl rfl

end GoV8
